import Mathlib

/-!
Shallow embedding of `src/jtssql/storage.py` (module `jtssql`, class
`Storage`) together with its internal helpers `_convert_table`,
`_restore_table`, `_convert_schema` and `_restore_schema`.

Python exceptions are modelled with an explicit error type `PyErr`;
fallible operations return `Except PyErr _` or a pair with an
`Option PyErr`.  SQLAlchemy objects are modelled by their documented
behaviour: the `MetaData` table collection is a list of `DBTable`
values, and the physical database of the configured namespace is a
second such list.  Python `str.replace(old, new, 1)` with `new = ""`
is modelled character-exactly by `dropFirstOccur`.
-/

namespace JTSSQL

/-- Physical (SQLAlchemy) column types used by the storage: `Text`,
`Integer`, `Float`, `Boolean`, plus any other reflected database type. -/
inductive SQLType where
  | text
  | integer
  | float
  | boolean
  | other (n : String)
deriving DecidableEq

/-- A physical column: name plus SQLAlchemy type. -/
structure Column where
  name : String
  type : SQLType
deriving DecidableEq

/-- A descriptor field: `{'name': ..., 'type': ...}` where the type is the
logical type string. -/
structure Field where
  name : String
  type : String
deriving DecidableEq

/-- A JSONTableSchema descriptor: `{'fields': [...]}`. -/
structure Schema where
  fields : List Field
deriving DecidableEq

/-- Scalar cell values exchanged at the storage boundary. -/
inductive Value where
  | str (s : String)
  | int (n : Int)
  | num (s : String)
  | bool (b : Bool)
  | null
deriving DecidableEq

/-- A table as held by the SQLAlchemy metadata or by the database itself:
physical (unqualified) name, columns, and, for physical tables, rows. -/
structure DBTable where
  name : String
  columns : List Column
  rows : List (List Value)
deriving DecidableEq

/-- Python exceptions raised by the code: `RuntimeError` (already exists /
not existent), `TypeError` (unsupported type, and the bad two-argument
`str.join` call), `KeyError` (missing metadata key) and the coercion
error raised by the external schema model. -/
inductive PyErr where
  | runtimeError (msg : String)
  | typeError (msg : String)
  | keyError (msg : String)
  | coercionError (msg : String)
deriving DecidableEq

/-- The state a `Storage` instance works on: its constructor arguments
(`engine`, `dbschema`, `prefix`, the last one named `pfx` here because
`prefix` is reserved), the SQLAlchemy metadata table collection, and the
physical tables of the configured namespace. -/
structure State where
  engine : String
  dbschema : Option String
  pfx : String
  metadata : List DBTable
  physical : List DBTable
deriving DecidableEq

/-- Boolean test that a list of characters starts with the pattern. -/
def leadEq : List Char → List Char → Bool
  | [], _ => true
  | _ :: _, [] => false
  | a :: as, b :: bs => a == b && leadEq as bs

/-- Remove the first occurrence of `pat` from `l`; identity when `pat`
does not occur (and when `pat` is empty).  This is exactly Python
`l.replace(pat, "", 1)` on character lists. -/
def dropFirstOccur (pat : List Char) : List Char → List Char
  | [] => []
  | c :: rest =>
    if leadEq pat (c :: rest) then (c :: rest).drop pat.length
    else c :: dropFirstOccur pat rest

/-- Boolean test that `pat` occurs somewhere in `l` (the empty pattern
occurs everywhere), matching Python substring search. -/
def containsPat (pat : List Char) : List Char → Bool
  | [] => leadEq pat []
  | c :: rest => leadEq pat (c :: rest) || containsPat pat rest

/-- Source `_convert_table`: physical name is `prefix + table`. -/
def convert_table (table : String) (pfx : String) : String :=
  pfx ++ table

/-- Source `_restore_table`: `table.replace(prefix, "", 1)`. -/
def restore_table (table : String) (pfx : String) : String :=
  ⟨dropFirstOccur pfx.data table.data⟩

/-- The creation-side mapping dictionary of `_convert_schema`. -/
def logicalToPhysical (t : String) : Option SQLType :=
  if t = "string" then some .text
  else if t = "integer" then some .integer
  else if t = "number" then some .float
  else if t = "boolean" then some .boolean
  else none

/-- The reflection-side mapping dictionary of `_restore_schema`. -/
def physicalToLogical : SQLType → Option String
  | .text => some "string"
  | .integer => some "integer"
  | .float => some "number"
  | .boolean => some "boolean"
  | .other _ => none

/-- A logical type string is supported when the creation mapping has an
entry for it. -/
def supported (t : String) : Bool :=
  (logicalToPhysical t).isSome

/-- Printable name of a physical type, for the `_restore_schema` error
message (`'Type %s is not supported' % column.type`). -/
def sqlTypeName : SQLType → String
  | .text => "TEXT"
  | .integer => "INTEGER"
  | .float => "FLOAT"
  | .boolean => "BOOLEAN"
  | .other n => n

instance {ε α : Type} [DecidableEq ε] [DecidableEq α] : DecidableEq (Except ε α) := fun a b =>
  match a, b with
  | .ok x, .ok y =>
    if h : x = y then isTrue (congrArg Except.ok h)
    else isFalse (fun hc => h (Except.ok.inj hc))
  | .error x, .error y =>
    if h : x = y then isTrue (congrArg Except.error h)
    else isFalse (fun hc => h (Except.error.inj hc))
  | .ok _, .error _ => isFalse (fun hc => Except.noConfusion hc)
  | .error _, .ok _ => isFalse (fun hc => Except.noConfusion hc)

/-- Sequence a fallible function over a list, stopping at the first
error: the Python `for` loop that appends results and lets the first
exception propagate. -/
def mapExcept (f : α → Except PyErr β) : List α → Except PyErr (List β)
  | [] => .ok []
  | a :: rest =>
    match f a with
    | .error e => .error e
    | .ok b =>
      match mapExcept f rest with
      | .error e => .error e
      | .ok bs => .ok (b :: bs)

/-- One field of the `_convert_schema` loop body. -/
def fieldToCol (f : Field) : Except PyErr Column :=
  match logicalToPhysical f.type with
  | some ct => .ok ⟨f.name, ct⟩
  | none => .error (.typeError ("Type " ++ f.type ++ " is not supported"))

/-- One column of the `_restore_schema` loop body. -/
def colToField (c : Column) : Except PyErr Field :=
  match physicalToLogical c.type with
  | some ft => .ok ⟨c.name, ft⟩
  | none => .error (.typeError ("Type " ++ sqlTypeName c.type ++ " is not supported"))

/-- Source `_convert_schema` (constraints are always empty, so only the
column list is returned). -/
def convertSchema (schema : Schema) : Except PyErr (List Column) :=
  mapExcept fieldToCol schema.fields

/-- Source `_restore_schema`. -/
def restoreSchema (columns : List Column) : Except PyErr Schema :=
  match mapExcept colToField columns with
  | .error e => .error e
  | .ok fields => .ok ⟨fields⟩

/-- Source `Storage.tables` property: every metadata table name run
through `_restore_table`, with no filtering. -/
def tables (st : State) : List String :=
  st.metadata.map (fun tb => restore_table tb.name st.pfx)

/-- Source `Storage.check`: membership of the name in `self.tables`. -/
def check (st : State) (table : String) : Bool :=
  decide (table ∈ tables st)

/-- Message of the `RuntimeError` raised by `Storage.create` for an
existing table: `'Table "%s" already exists.' % table`. -/
def alreadyMsg (table : String) : String :=
  "Table \"" ++ table ++ "\" already exists."

/-- The loop body of `Storage.create` over the zipped `(table, schema)`
pairs.  On success each pair registers a new `Table` object in the
metadata; the first exception aborts the loop, keeping the metadata
mutations made so far and leaving the physical database untouched. -/
def createLoop (st : State) : List (String × Schema) → State × Option PyErr
  | [] => (st, none)
  | (t, sch) :: rest =>
    if check st t then
      (st, some (.runtimeError (alreadyMsg t)))
    else
      match convertSchema sch with
      | .error e => (st, some e)
      | .ok cols =>
        createLoop
          { st with metadata := st.metadata ++ [⟨convert_table t st.pfx, cols, []⟩] }
          rest

/-- SQLAlchemy `MetaData.create_all` (checkfirst): create physically
every metadata table whose name is not yet present in the database. -/
def createAll (physical : List DBTable) (metadata : List DBTable) : List DBTable :=
  physical ++ metadata.filter (fun tb => !(physical.any (fun p => p.name == tb.name)))

/-- Source `Storage.create` on the list form of its arguments (a single
string and descriptor are wrapped into singleton lists by the source
before this point).  The lists are combined with `zip`, so the longer
list is silently truncated.  `create_all` runs only after the whole loop
succeeded. -/
def create (st : State) (tablesArg : List String) (schemasArg : List Schema) :
    State × Option PyErr :=
  match createLoop st (tablesArg.zip schemasArg) with
  | (st', none) => ({ st' with physical := createAll st'.physical st'.metadata }, none)
  | (st', some e) => (st', some e)

/-- Representation of a storage, from `Storage.__repr__`:
`'Storage <{engine}/{dbschema}>'`, where Python prints a missing
namespace as `None`. -/
def storageRepr (st : State) : String :=
  "Storage <" ++ st.engine ++ "/" ++
    (match st.dbschema with | none => "None" | some s => s) ++ ">"

/-- Message of the `RuntimeError` raised by `Storage.delete` for a
missing table: `'Table "%s" is not existent.' % self` interpolates the
storage object itself, not the table name. -/
def notFoundMsg (st : State) : String :=
  "Table \"" ++ storageRepr st ++ "\" is not existent."

/-- The loop of `Storage.delete`: every requested table must exist, and
its physical name is appended to the target list. -/
def deleteLoopAux (st : State) (acc : List String) : List String → Except PyErr (List String)
  | [] => .ok acc
  | t :: rest =>
    if check st t then
      deleteLoopAux st (acc ++ [convert_table t st.pfx]) rest
    else
      .error (.runtimeError (notFoundMsg st))

/-- Source `Storage.delete`, modelled up to the
`metadata.drop_all(tables=[targets])` call: the successful result is the
argument handed to `drop_all`, which the source wraps in one more list
(`[targets]` instead of `targets`). -/
def delete (st : State) (tablesArg : List String) : Except PyErr (List (List String)) :=
  match deleteLoopAux st [] tablesArg with
  | .error e => .error e
  | .ok targets => .ok [targets]

/-- Python truthiness of the optional namespace argument: `None` and the
empty string are falsy. -/
def truthy : Option String → Bool
  | none => false
  | some s => decide (s ≠ "")

/-- Message of the `TypeError` raised by CPython for
`'.'.join(self.__dbschema, key)`: `str.join` accepts exactly one
argument, so the call fails whenever it is reached. -/
def joinMsg : String :=
  "join() takes exactly one argument (2 given)"

/-- Source `Storage.__get_dbtable`: builds the metadata dictionary key
from the prefixed name; when the namespace is truthy the source calls
`'.'.join` with two arguments, which unconditionally raises `TypeError`
before any lookup happens.  A missing key raises `KeyError`. -/
def getDbtable (st : State) (table : String) : Except PyErr DBTable :=
  let key := convert_table table st.pfx
  if truthy st.dbschema then
    .error (.typeError joinMsg)
  else
    match st.metadata.find? (fun tb => tb.name == key) with
    | some tb => .ok tb
    | none => .error (.keyError key)

/-- Source `Storage.describe`: look the table up, then restore its
descriptor from the reflected columns. -/
def describe (st : State) (table : String) : Except PyErr Schema :=
  match getDbtable st table with
  | .error e => .error e
  | .ok dbt => restoreSchema dbt.columns

/-- Modelled from the spec: the successful conversions of the per-value
coercion performed by `SchemaModel` of the external `jsontableschema`
dependency (not part of `src/`): a value converts to the logical type of
its field when it already has that type or has an accepted textual form. -/
def castOpt (ftype : String) (v : Value) : Option Value :=
  if ftype = "string" then
    match v with
    | .str s => some (.str s)
    | _ => none
  else if ftype = "integer" then
    match v with
    | .int n => some (.int n)
    | .str s => (s.toInt?).map Value.int
    | _ => none
  else if ftype = "number" then
    match v with
    | .num s => some (.num s)
    | .int n => some (.num (toString n))
    | _ => none
  else if ftype = "boolean" then
    match v with
    | .bool b => some (.bool b)
    | _ => none
  else none

/-- Modelled from the spec: the per-value coercion of the external
schema model, raising a coercion error when the value cannot be
converted to the logical type of its field. -/
def castValue (ftype : String) (v : Value) : Except PyErr Value :=
  match castOpt ftype v with
  | some w => .ok w
  | none => .error (.coercionError ("Can not cast value to type " ++ ftype))

/-- Modelled from the spec: `SchemaModel.convert_row` of the external
`jsontableschema` dependency, as described by the spec for `writeTable`:
it fails when the row arity differs from the field count and otherwise
casts every value to its field type, failing on the first value that
cannot be coerced. -/
def convertRow (fields : List Field) (row : List Value) : Except PyErr (List Value) :=
  if row.length ≠ fields.length then
    .error (.coercionError "Row length does not match fields count")
  else
    mapExcept (fun p => castValue p.1.type p.2) (fields.zip row)

/-- Source `Storage.read`: look the table up, select its physical rows,
describe the table and convert every row through the schema model. -/
def read (st : State) (table : String) : Except PyErr (List (List Value)) :=
  match getDbtable st table with
  | .error e => .error e
  | .ok dbt =>
    let result := ((st.physical.find? (fun p => p.name == dbt.name)).map
      (fun p => p.rows)).getD []
    match describe st table with
    | .error e => .error e
    | .ok sch => mapExcept (fun row => convertRow sch.fields row) result

/-- One iteration of the row loop of `Storage.write`: convert the row
through the schema model and key every converted value by its field
name. -/
def writeRowRecord (sch : Schema) (row : List Value) :
    Except PyErr (List (String × Value)) :=
  match convertRow sch.fields row with
  | .error e => .error e
  | .ok row2 => .ok ((sch.fields.map Field.name).zip row2)

/-- Source `Storage.write`, modelled up to the
`dbtable.insert().execute(cdata)` call: the successful result is the
`cdata` payload handed to the insert, a field-name-keyed record per
converted row.  Every row is converted before anything is inserted, and
the first conversion error propagates. -/
def write (st : State) (table : String) (data : List (List Value)) :
    Except PyErr (List (List (String × Value))) :=
  match describe st table with
  | .error e => .error e
  | .ok sch =>
    match mapExcept (writeRowRecord sch) data with
    | .error e => .error e
    | .ok cdata =>
      match getDbtable st table with
      | .error e => .error e
      | .ok _ => .ok cdata

/-- A fresh storage over an empty database, with prefix `x_`. -/
def stZero : State := ⟨"sqlite", none, "x_", [], []⟩

/-- A two-field descriptor using only supported types. -/
def schemaPeople : Schema := ⟨[⟨"id", "integer"⟩, ⟨"name", "string"⟩]⟩

/-- A descriptor with an unsupported field type. -/
def schemaMoney : Schema := ⟨[⟨"amount", "money"⟩]⟩

/-- A storage whose namespace holds one physical table `foo` that does
not start with the configured prefix `x_`. -/
def cexSt : State := ⟨"sqlite", none, "x_", [⟨"foo", [], []⟩], [⟨"foo", [], []⟩]⟩

/-- A storage with two existing prefixed tables `x_a` and `x_b`. -/
def stTwo : State :=
  ⟨"sqlite", none, "x_", [⟨"x_a", [], []⟩, ⟨"x_b", [], []⟩],
    [⟨"x_a", [], []⟩, ⟨"x_b", [], []⟩]⟩

/-- A storage constructed with a non-empty namespace. -/
def stNs : State := ⟨"postgres", some "public", "", [], []⟩

/-- A storage without namespace or prefix holding one table `people`. -/
def stPeople : State :=
  ⟨"sqlite", none, "",
    [⟨"people", [⟨"id", .integer⟩, ⟨"name", .text⟩], []⟩],
    [⟨"people", [⟨"id", .integer⟩, ⟨"name", .text⟩], []⟩]⟩

/-! Helper lemmas. -/

theorem leadEq_append (p r : List Char) : leadEq p (p ++ r) = true := by
  induction p with
  | nil => rfl
  | cons c cs ih => simp [leadEq, ih]

theorem dropFirstOccur_append (p r : List Char) : dropFirstOccur p (p ++ r) = r := by
  cases p with
  | nil =>
    cases r with
    | nil => rfl
    | cons c cs => simp [dropFirstOccur, leadEq]
  | cons q qs =>
    have hlead := leadEq_append (q :: qs) r
    have hdrop := List.drop_left (q :: qs) r
    rw [List.cons_append] at hlead hdrop ⊢
    simp [dropFirstOccur, hlead, hdrop]

theorem restore_convert (t p : String) : restore_table (convert_table t p) p = t := by
  cases t with
  | mk td =>
    cases p with
    | mk pd =>
      show String.mk (dropFirstOccur pd (pd ++ td)) = String.mk td
      rw [dropFirstOccur_append]

theorem dropFirstOccur_not_contains (p : List Char) (l : List Char)
    (h : containsPat p l = false) : dropFirstOccur p l = l := by
  induction l with
  | nil => rfl
  | cons c rest ih =>
    rw [containsPat, Bool.or_eq_false_iff] at h
    simp [dropFirstOccur, h.1, ih h.2]

theorem mapExcept_cons_error {α β : Type} {f : α → Except PyErr β} {a : α}
    {rest : List α} {e : PyErr} (h : f a = .error e) :
    mapExcept f (a :: rest) = .error e := by
  simp [mapExcept, h]

theorem mapExcept_cons_ok_ok {α β : Type} {f : α → Except PyErr β} {a : α}
    {rest : List α} {b : β} {bs : List β} (h : f a = .ok b)
    (h2 : mapExcept f rest = .ok bs) :
    mapExcept f (a :: rest) = .ok (b :: bs) := by
  simp [mapExcept, h, h2]

theorem mapExcept_cons_ok_error {α β : Type} {f : α → Except PyErr β} {a : α}
    {rest : List α} {b : β} {e : PyErr} (h : f a = .ok b)
    (h2 : mapExcept f rest = .error e) :
    mapExcept f (a :: rest) = .error e := by
  simp [mapExcept, h, h2]

theorem mapExcept_error_shape {α β : Type} (P : PyErr → Prop) (f : α → Except PyErr β)
    (hf : ∀ a e, f a = .error e → P e) :
    ∀ (l : List α) (e : PyErr), mapExcept f l = .error e → P e := by
  intro l
  induction l with
  | nil =>
    intro e h
    simp [mapExcept] at h
  | cons a rest ih =>
    intro e h
    cases hfa : f a with
    | error e2 =>
      rw [mapExcept_cons_error hfa] at h
      cases h
      exact hf a _ hfa
    | ok b =>
      cases hrest : mapExcept f rest with
      | error e2 =>
        rw [mapExcept_cons_ok_error hfa hrest] at h
        cases h
        exact ih _ hrest
      | ok bs =>
        rw [mapExcept_cons_ok_ok hfa hrest] at h
        exact Except.noConfusion h

theorem mapExcept_error_of_mem {α β : Type} {f : α → Except PyErr β} {l : List α}
    {a : α} {e : PyErr} (hmem : a ∈ l) (herr : f a = .error e) :
    ∃ e2, mapExcept f l = .error e2 := by
  induction l with
  | nil => cases hmem
  | cons x rest ih =>
    cases hfx : f x with
    | error e2 => exact ⟨e2, mapExcept_cons_error hfx⟩
    | ok b =>
      have hmem2 : a ∈ rest := by
        cases hmem with
        | head =>
          rw [hfx] at herr
          exact Except.noConfusion herr
        | tail _ hmem3 => exact hmem3
      obtain ⟨e2, he2⟩ := ih hmem2
      exact ⟨e2, mapExcept_cons_ok_error hfx he2⟩

theorem p2l_l2p (ty : String) (ct : SQLType) (h : logicalToPhysical ty = some ct) :
    physicalToLogical ct = some ty := by
  unfold logicalToPhysical at h
  split_ifs at h with h1 h2 h3 h4
  · injection h with h5; subst h5; subst h1; rfl
  · injection h with h5; subst h5; subst h2; rfl
  · injection h with h5; subst h5; subst h3; rfl
  · injection h with h5; subst h5; subst h4; rfl

theorem l2p_p2l (ct : SQLType) (ty : String) (h : physicalToLogical ct = some ty) :
    logicalToPhysical ty = some ct := by
  cases ct with
  | text => injection h with h2; rw [← h2]; rfl
  | integer => injection h with h2; rw [← h2]; rfl
  | float => injection h with h2; rw [← h2]; rfl
  | boolean => injection h with h2; rw [← h2]; rfl
  | other n => exact Option.noConfusion h

theorem fields_roundtrip (fs : List Field)
    (h : fs.all (fun f => supported f.type) = true) :
    ∃ cols, mapExcept fieldToCol fs = .ok cols ∧ mapExcept colToField cols = .ok fs := by
  induction fs with
  | nil => exact ⟨[], rfl, rfl⟩
  | cons f rest ih =>
    rw [List.all_cons, Bool.and_eq_true] at h
    obtain ⟨hf, hrest⟩ := h
    obtain ⟨ct, hct⟩ := Option.isSome_iff_exists.mp hf
    obtain ⟨cols, h1, h2⟩ := ih hrest
    refine ⟨⟨f.name, ct⟩ :: cols, ?_, ?_⟩
    · have hfc : fieldToCol f = .ok ⟨f.name, ct⟩ := by simp [fieldToCol, hct]
      exact mapExcept_cons_ok_ok hfc h1
    · have hcf : colToField ⟨f.name, ct⟩ = .ok f := by
        simp [colToField, p2l_l2p f.type ct hct]
      exact mapExcept_cons_ok_ok hcf h2

theorem convertSchema_error_typeError {sch : Schema} {e : PyErr}
    (h : convertSchema sch = .error e) : ∃ m, e = .typeError m := by
  refine mapExcept_error_shape (fun e2 => ∃ m, e2 = .typeError m) fieldToCol
    ?_ sch.fields e h
  intro f e2 hf
  unfold fieldToCol at hf
  cases hlp : logicalToPhysical f.type with
  | some ct =>
    rw [hlp] at hf
    exact Except.noConfusion hf
  | none =>
    rw [hlp] at hf
    injection hf with h2
    exact ⟨_, h2.symm⟩

theorem createLoop_physical (l : List (String × Schema)) :
    ∀ st : State, ((createLoop st l).1).physical = st.physical := by
  induction l with
  | nil => intro st; rfl
  | cons p rest ih =>
    intro st
    obtain ⟨t, sch⟩ := p
    cases hc : check st t with
    | true => simp [createLoop, hc]
    | false =>
      cases hcs : convertSchema sch with
      | error e => simp [createLoop, hc, hcs]
      | ok cols =>
        simp only [createLoop, hc, hcs]
        exact ih _

theorem find?_append_of_none {p : DBTable → Bool} {l1 : List DBTable}
    (l2 : List DBTable) (h : ∀ x ∈ l1, p x = false) :
    (l1 ++ l2).find? p = l2.find? p := by
  induction l1 with
  | nil => rfl
  | cons a rest ih =>
    have ha : p a = false := h a (List.mem_cons_self a rest)
    rw [List.cons_append, List.find?_cons_of_neg _ (by simp [ha])]
    exact ih (fun x hx => h x (List.mem_cons_of_mem a hx))

theorem check_false_no_key {st : State} {t : String} (h : check st t = false)
    {tb : DBTable} (htb : tb ∈ st.metadata) :
    (tb.name == convert_table t st.pfx) = false := by
  cases hbeq : tb.name == convert_table t st.pfx with
  | false => rfl
  | true =>
    exfalso
    have hname : tb.name = convert_table t st.pfx := beq_iff_eq.mp hbeq
    have hmem : t ∈ tables st := by
      refine List.mem_map.mpr ⟨tb, htb, ?_⟩
      rw [hname, restore_convert]
    exact of_decide_eq_false h hmem

theorem create_single_exists {st : State} {t : String} {D : Schema}
    (h : check st t = true) :
    create st [t] [D] = (st, some (.runtimeError (alreadyMsg t))) := by
  simp [create, createLoop, h]

theorem create_single_err {st : State} {t : String} {D : Schema} {e : PyErr}
    (hfresh : check st t = false) (hcs : convertSchema D = .error e) :
    create st [t] [D] = (st, some e) := by
  simp [create, createLoop, hfresh, hcs]

theorem create_single_ok_parts {st : State} {t : String} {D : Schema}
    {cols : List Column} (hfresh : check st t = false)
    (hcs : convertSchema D = .ok cols) :
    (create st [t] [D]).2 = none ∧
    (create st [t] [D]).1.metadata =
      st.metadata ++ [⟨convert_table t st.pfx, cols, []⟩] ∧
    (create st [t] [D]).1.pfx = st.pfx ∧
    (create st [t] [D]).1.dbschema = st.dbschema := by
  refine ⟨?_, ?_, ?_, ?_⟩ <;> simp [create, createLoop, hfresh, hcs]

theorem create_physical_of_error (st : State) (ts : List String) (ss : List Schema)
    (st2 : State) (e : PyErr) (h : create st ts ss = (st2, some e)) :
    st2.physical = st.physical := by
  unfold create at h
  cases hloop : createLoop st (ts.zip ss) with
  | mk st3 r =>
    rw [hloop] at h
    cases r with
    | none => simp at h
    | some e2 =>
      simp at h
      have hphys := createLoop_physical (ts.zip ss) st
      rw [hloop] at hphys
      rw [← h.1]
      exact hphys

theorem convertSchema_error_of_bad {D : Schema}
    (hbad : D.fields.any (fun f => !(supported f.type)) = true) :
    ∃ m, convertSchema D = .error (.typeError m) := by
  obtain ⟨f, hf, hfb⟩ := List.any_eq_true.mp hbad
  have hsupf : supported f.type = false := by
    cases hs : supported f.type with
    | false => rfl
    | true => rw [hs] at hfb; exact absurd hfb (by decide)
  have hfe : ∃ e, fieldToCol f = .error e := by
    unfold fieldToCol
    cases hlp : logicalToPhysical f.type with
    | some ct =>
      exfalso
      rw [supported, hlp] at hsupf
      exact Bool.noConfusion hsupf
    | none => exact ⟨_, rfl⟩
  obtain ⟨e, he⟩ := hfe
  obtain ⟨e2, he2⟩ := mapExcept_error_of_mem hf he
  obtain ⟨m, hm⟩ := convertSchema_error_typeError he2
  refine ⟨m, ?_⟩
  rw [hm] at he2
  exact he2

theorem check_after_create {st : State} {t : String} {D : Schema}
    {cols : List Column} (hfresh : check st t = false)
    (hcs : convertSchema D = .ok cols) :
    check (create st [t] [D]).1 t = true := by
  obtain ⟨-, hm, hp, -⟩ := create_single_ok_parts hfresh hcs
  unfold check
  refine decide_eq_true ?_
  unfold tables
  rw [hm, hp]
  refine List.mem_map.mpr
    ⟨⟨convert_table t st.pfx, cols, []⟩,
      List.mem_append_right _ (List.mem_cons_self _ _), ?_⟩
  exact restore_convert t st.pfx

theorem deleteLoopAux_all_ok {st : State} :
    ∀ (l : List String) (acc : List String), l.all (check st) = true →
      deleteLoopAux st acc l = .ok (acc ++ l.map (fun t => convert_table t st.pfx)) := by
  intro l
  induction l with
  | nil => intro acc h; simp [deleteLoopAux]
  | cons t rest ih =>
    intro acc h
    rw [List.all_cons, Bool.and_eq_true] at h
    simp only [deleteLoopAux, h.1, if_true]
    rw [ih _ h.2]
    simp

theorem castValue_error_coercion {ft : String} {v : Value} {e : PyErr}
    (h : castValue ft v = .error e) : ∃ m, e = .coercionError m := by
  unfold castValue at h
  cases hco : castOpt ft v with
  | some w => rw [hco] at h; exact Except.noConfusion h
  | none =>
    rw [hco] at h
    injection h with h2
    exact ⟨_, h2.symm⟩

theorem convertRow_error_coercion {fields : List Field} {row : List Value}
    {e : PyErr} (h : convertRow fields row = .error e) :
    ∃ m, e = .coercionError m := by
  unfold convertRow at h
  by_cases hl : row.length ≠ fields.length
  · rw [if_pos hl] at h
    injection h with h2
    exact ⟨_, h2.symm⟩
  · rw [if_neg hl] at h
    refine mapExcept_error_shape (fun e2 => ∃ m, e2 = .coercionError m) _ ?_ _ e h
    intro p e2 hp
    exact castValue_error_coercion hp

theorem writeRowRecord_error_coercion {sch : Schema} {row : List Value}
    {e : PyErr} (h : writeRowRecord sch row = .error e) :
    ∃ m, e = .coercionError m := by
  unfold writeRowRecord at h
  cases hcr : convertRow sch.fields row with
  | error e2 =>
    rw [hcr] at h
    injection h with h2
    rw [← h2]
    exact convertRow_error_coercion hcr
  | ok r2 =>
    rw [hcr] at h
    exact Except.noConfusion h

theorem zip_take_min {α β : Type} (ts : List α) (ss : List β) :
    ts.zip ss =
      (ts.take (min ts.length ss.length)).zip (ss.take (min ts.length ss.length)) := by
  induction ts generalizing ss with
  | nil => simp
  | cons t ts2 ih =>
    cases ss with
    | nil => simp
    | cons s ss2 =>
      simp only [List.length_cons, Nat.succ_min_succ, List.take_succ_cons,
        List.zip_cons_cons]
      rw [← ih ss2]

theorem getDbtable_of_find {st : State} {t : String} {tb : DBTable}
    (hns : truthy st.dbschema = false)
    (hfind : st.metadata.find? (fun x => x.name == convert_table t st.pfx) = some tb) :
    getDbtable st t = .ok tb := by
  simp [getDbtable, hns, hfind]

/-! Claim theorems. -/

/-- Claim C1: creating a table from a descriptor whose fields all have
one of the four supported types and then describing that table returns
the descriptor unchanged, and the logical-to-physical and
physical-to-logical mappings are mutually inverse on the supported
types. -/
theorem create_describe_roundtrip (st : State) (t : String) (D : Schema)
    (hns : truthy st.dbschema = false)
    (hfresh : check st t = false)
    (hsup : D.fields.all (fun f => supported f.type) = true) :
    (create st [t] [D]).2 = none ∧
    describe (create st [t] [D]).1 t = .ok D ∧
    (∀ ty ct, logicalToPhysical ty = some ct → physicalToLogical ct = some ty) ∧
    (∀ ct ty, physicalToLogical ct = some ty → logicalToPhysical ty = some ct) := by
  obtain ⟨cols, hcs, hrs⟩ := fields_roundtrip D.fields hsup
  have hcs2 : convertSchema D = .ok cols := hcs
  obtain ⟨h2, hm, hp, hdb⟩ := create_single_ok_parts hfresh hcs2
  refine ⟨h2, ?_, fun ty ct hx => p2l_l2p ty ct hx, fun ct ty hx => l2p_p2l ct ty hx⟩
  have hns2 : truthy ((create st [t] [D]).1.dbschema) = false := by
    rw [hdb]; exact hns
  have hfind : (create st [t] [D]).1.metadata.find?
      (fun x => x.name == convert_table t ((create st [t] [D]).1.pfx)) =
      some ⟨convert_table t st.pfx, cols, []⟩ := by
    rw [hm, hp, find?_append_of_none _ (fun x hx => check_false_no_key hfresh hx)]
    exact List.find?_cons_of_pos _ (by simp)
  have hget := getDbtable_of_find hns2 hfind
  unfold describe
  rw [hget]
  show restoreSchema cols = .ok D
  unfold restoreSchema
  rw [hrs]

/-- Witness for claim C1 at a concrete storage and descriptor. -/
theorem create_describe_roundtrip_witness :
    (create stZero ["people"] [schemaPeople]).2 = none ∧
    describe (create stZero ["people"] [schemaPeople]).1 "people" = .ok schemaPeople := by
  have h := create_describe_roundtrip stZero "people" schemaPeople
    (by decide) (by decide) (by decide)
  exact ⟨h.1, h.2.1⟩

/-- Claim C2, counterexample: the configured prefix is `x_`, the
namespace holds a physical table `foo` whose name does not start with
the prefix, yet `foo` appears in the `tables` listing instead of being
excluded. -/
theorem tables_no_exclusion_cex :
    cexSt.pfx = "x_" ∧
    (∃ tb ∈ cexSt.physical, tb.name = "foo") ∧
    leadEq "x_".data "foo".data = false ∧
    "foo" ∈ tables cexSt ∧
    tables cexSt ≠ [] := by
  refine ⟨rfl, ⟨⟨"foo", [], []⟩, by decide, rfl⟩, by decide, by decide, by decide⟩

/-- Claim C2, amended: the `tables` property returns every metadata
table of the namespace (no exclusion), each physical name transformed by
removing the first occurrence of the prefix; names that start with the
prefix have it stripped from the front, and names in which the prefix
does not occur are returned unchanged. -/
theorem tables_restores_all (st : State) :
    tables st = st.metadata.map (fun tb => restore_table tb.name st.pfx) ∧
    (∀ nm : String, restore_table (convert_table nm st.pfx) st.pfx = nm) ∧
    (∀ nm : String, containsPat st.pfx.data nm.data = false →
      restore_table nm st.pfx = nm) := by
  refine ⟨rfl, fun nm => restore_convert nm st.pfx, ?_⟩
  intro nm h
  cases nm with
  | mk nmd =>
    show String.mk (dropFirstOccur st.pfx.data nmd) = String.mk nmd
    rw [dropFirstOccur_not_contains _ _ h]

/-- Witness for amended claim C2 at a concrete storage. -/
theorem tables_restores_all_witness :
    tables cexSt = ["foo"] ∧
    restore_table (convert_table "tbl" "x_") "x_" = "tbl" ∧
    containsPat "x_".data "foo".data = false ∧
    restore_table "foo" "x_" = "foo" := by
  have h := tables_restores_all cexSt
  exact ⟨by decide, h.2.1 "tbl", by decide, h.2.2 "foo" (by decide)⟩

/-- Claim C3: a create call on a fresh table whose schema contains a
field of an unsupported type fails with the unsupported-type
`TypeError` and leaves the state untouched; moreover, any failing create
call leaves the physical database unchanged, so no table is physically
created. -/
theorem create_unsupported_no_physical (st : State) (t : String) (D : Schema)
    (hfresh : check st t = false)
    (hbad : D.fields.any (fun f => !(supported f.type)) = true) :
    (∃ m, create st [t] [D] = (st, some (.typeError m))) ∧
    (∀ (ts : List String) (ss : List Schema) (st2 : State) (e : PyErr),
      create st ts ss = (st2, some e) → st2.physical = st.physical) := by
  constructor
  · obtain ⟨m, hcs⟩ := convertSchema_error_of_bad hbad
    exact ⟨m, create_single_err hfresh hcs⟩
  · intro ts ss st2 e h
    exact create_physical_of_error st ts ss st2 e h

/-- Witness for claim C3 at a concrete storage and the `money` field. -/
theorem create_unsupported_no_physical_witness :
    check stZero "accounts" = false ∧
    schemaMoney.fields.any (fun f => !(supported f.type)) = true ∧
    (∃ m, create stZero ["accounts"] [schemaMoney] = (stZero, some (.typeError m))) := by
  have h := create_unsupported_no_physical stZero "accounts" schemaMoney
    (by decide) (by decide)
  exact ⟨by decide, by decide, h.1⟩

/-- Claim C4: a single-table create call raises the already-exists
`RuntimeError` exactly when the table name passes the existence check at
call time, and a second create of the same fresh name with a valid
schema fails with that error. -/
theorem create_already_exists_iff (st : State) (t : String) (D : Schema) :
    ((create st [t] [D]).2 = some (.runtimeError (alreadyMsg t)) ↔ check st t = true) ∧
    (check st t = false → D.fields.all (fun f => supported f.type) = true →
      (create st [t] [D]).2 = none ∧
      (create (create st [t] [D]).1 [t] [D]).2 =
        some (.runtimeError (alreadyMsg t))) := by
  constructor
  · constructor
    · intro h
      cases hc : check st t with
      | true => rfl
      | false =>
        exfalso
        cases hcs : convertSchema D with
        | error e =>
          obtain ⟨m, hm⟩ := convertSchema_error_typeError hcs
          subst hm
          rw [create_single_err hc hcs] at h
          simp at h
        | ok cols =>
          have hnone := (create_single_ok_parts hc hcs).1
          rw [hnone] at h
          exact Option.noConfusion h
    · intro h
      rw [create_single_exists h]
  · intro hfresh hsup
    obtain ⟨cols, hcs, -⟩ := fields_roundtrip D.fields hsup
    have hcs2 : convertSchema D = .ok cols := hcs
    refine ⟨(create_single_ok_parts hfresh hcs2).1, ?_⟩
    rw [create_single_exists (check_after_create hfresh hcs2)]

/-- Witness for claim C4: the second identical create call fails. -/
theorem create_already_exists_iff_witness :
    check stZero "people" = false ∧
    schemaPeople.fields.all (fun f => supported f.type) = true ∧
    (create stZero ["people"] [schemaPeople]).2 = none ∧
    (create (create stZero ["people"] [schemaPeople]).1 ["people"] [schemaPeople]).2 =
      some (.runtimeError (alreadyMsg "people")) := by
  have h := (create_already_exists_iff stZero "people" schemaPeople).2
    (by decide) (by decide)
  exact ⟨by decide, by decide, h.1, h.2⟩

/-- Claim C5: a single-table delete raises the not-existent
`RuntimeError` exactly when the existence check fails, and when the
table exists the delete proceeds, handing the prefixed physical name to
the drop operation. -/
theorem delete_notfound_iff (st : State) (t : String) :
    (delete st [t] = .error (.runtimeError (notFoundMsg st)) ↔ check st t = false) ∧
    (check st t = true → delete st [t] = .ok [[convert_table t st.pfx]]) := by
  have hok : check st t = true → delete st [t] = .ok [[convert_table t st.pfx]] := by
    intro h
    simp [delete, deleteLoopAux, h]
  refine ⟨⟨?_, ?_⟩, hok⟩
  · intro h
    cases hc : check st t with
    | false => rfl
    | true =>
      rw [hok hc] at h
      exact Except.noConfusion h
  · intro h
    simp [delete, deleteLoopAux, h]

/-- Witness for claim C5 at a concrete storage, both polarities. -/
theorem delete_notfound_iff_witness :
    check stTwo "a" = true ∧
    delete stTwo ["a"] = .ok [["x_a"]] ∧
    check stTwo "zzz" = false ∧
    delete stTwo ["zzz"] = .error (.runtimeError (notFoundMsg stTwo)) := by
  refine ⟨by decide, ?_, by decide, ?_⟩
  · exact (delete_notfound_iff stTwo "a").2 (by decide)
  · exact (delete_notfound_iff stTwo "zzz").1.mpr (by decide)

/-- Claim C6: deleting a list of existing tables hands the drop-all
operation the list of physical target names nested inside one more
list, not the flat target list. -/
theorem delete_drop_arg_nested (st : State) (ts : List String)
    (h : ts.all (check st) = true) :
    delete st ts = .ok [ts.map (fun t => convert_table t st.pfx)] := by
  unfold delete
  rw [deleteLoopAux_all_ok ts [] h]
  simp

/-- Witness for claim C6 with two existing tables. -/
theorem delete_drop_arg_nested_witness :
    ["a", "b"].all (check stTwo) = true ∧
    delete stTwo ["a", "b"] = .ok [["x_a", "x_b"]] := by
  have h := delete_drop_arg_nested stTwo ["a", "b"] (by decide)
  exact ⟨by decide, h⟩

/-- Claim C7: any row whose arity differs from the field count fails the
schema-model conversion, and when any input row fails conversion the
write call propagates a coercion error, so no such row is inserted. -/
theorem write_row_errors (st : State) (tbl : String) (data : List (List Value))
    (sch : Schema) (hdesc : describe st tbl = .ok sch)
    (hbad : ∃ row ∈ data, ∃ e, convertRow sch.fields row = .error e) :
    (∀ row : List Value, row.length ≠ sch.fields.length →
      convertRow sch.fields row =
        .error (.coercionError "Row length does not match fields count")) ∧
    (∃ m, write st tbl data = .error (.coercionError m)) := by
  constructor
  · intro row hlen
    unfold convertRow
    rw [if_pos hlen]
  · obtain ⟨row, hmem, e, he⟩ := hbad
    have hg : writeRowRecord sch row = .error e := by
      unfold writeRowRecord
      rw [he]
    obtain ⟨e2, he2⟩ := mapExcept_error_of_mem hmem hg
    obtain ⟨m, hm⟩ :=
      mapExcept_error_shape (fun e3 => ∃ m, e3 = .coercionError m)
        (writeRowRecord sch) (fun r e3 hr => writeRowRecord_error_coercion hr)
        data e2 he2
    subst hm
    refine ⟨m, ?_⟩
    simp [write, hdesc, he2]

/-- Witness for claim C7: a one-value row against a two-field table. -/
theorem write_row_errors_witness :
    describe stPeople "people" = .ok schemaPeople ∧
    (∃ m, write stPeople "people" [[Value.int 1]] = .error (.coercionError m)) := by
  have hd : describe stPeople "people" = .ok schemaPeople := by decide
  have hb : ∃ row ∈ [[Value.int 1]], ∃ e,
      convertRow schemaPeople.fields row = .error e :=
    ⟨[Value.int 1], by decide, ⟨.coercionError "Row length does not match fields count", by decide⟩⟩
  exact ⟨hd, (write_row_errors stPeople "people" [[Value.int 1]] schemaPeople hd hb).2⟩

/-- Claim C8: with a truthy (non-empty) namespace, the internal lookup
key is built with a two-argument `str.join` call that always raises
`TypeError`, so describe, read and write fail for every table name. -/
theorem namespaced_ops_fail (st : State) (h : truthy st.dbschema = true) :
    ∀ (tbl : String) (data : List (List Value)),
      describe st tbl = .error (.typeError joinMsg) ∧
      read st tbl = .error (.typeError joinMsg) ∧
      write st tbl data = .error (.typeError joinMsg) := by
  intro tbl data
  have hg : getDbtable st tbl = .error (.typeError joinMsg) := by
    simp [getDbtable, h]
  have hd : describe st tbl = .error (.typeError joinMsg) := by
    simp [describe, hg]
  exact ⟨hd, by simp [read, hg], by simp [write, hd]⟩

/-- Witness for claim C8 at a storage with namespace `public`. -/
theorem namespaced_ops_fail_witness :
    truthy stNs.dbschema = true ∧
    describe stNs "people" = .error (.typeError joinMsg) ∧
    read stNs "people" = .error (.typeError joinMsg) ∧
    write stNs "people" [] = .error (.typeError joinMsg) := by
  have h := namespaced_ops_fail stNs (by decide) "people" []
  exact ⟨by decide, h.1, h.2.1, h.2.2⟩

/-- Claim C9: a create call over lists of unequal length behaves exactly
as the call restricted to the pairwise-zipped common length: the surplus
names or schemas are silently ignored and raise no error. -/
theorem create_zip_truncates (st : State) (ts : List String) (ss : List Schema) :
    create st ts ss =
      create st (ts.take (min ts.length ss.length))
        (ss.take (min ts.length ss.length)) := by
  unfold create
  rw [← zip_take_min]

/-- Claim C10: the not-existent error raised by delete interpolates the
storage representation, not the missing table name, so the message is
the same fixed string for every missing name. -/
theorem delete_msg_uses_storage_repr (st : State) (t : String)
    (h : check st t = false) :
    delete st [t] =
      .error (.runtimeError ("Table \"" ++ storageRepr st ++ "\" is not existent.")) ∧
    (∀ t2 : String, check st t2 = false → delete st [t] = delete st [t2]) := by
  constructor
  · simp [delete, deleteLoopAux, h, notFoundMsg]
  · intro t2 h2
    simp [delete, deleteLoopAux, h, h2]

/-- Witness for claim C10 at a concrete storage and two missing names. -/
theorem delete_msg_uses_storage_repr_witness :
    check stTwo "zzz" = false ∧
    delete stTwo ["zzz"] =
      .error (.runtimeError ("Table \"" ++ storageRepr stTwo ++ "\" is not existent.")) ∧
    delete stTwo ["zzz"] = delete stTwo ["qqq"] := by
  have h := delete_msg_uses_storage_repr stTwo "zzz" (by decide)
  exact ⟨by decide, h.1, h.2 "qqq" (by decide)⟩

end JTSSQL
